import Mathlib

/-!
Verification development for the cliex HTTP client library.

The Go source is shallowly embedded: pure helpers become Lean functions,
the retry executor becomes a fuel-based recursion over an abstract transport
(modelled as a function from the dispatch number to its outcome), and the
context's cancellation signal becomes a Boolean schedule indexed by the
retry number.  Durations (Go time.Duration, an int64 of nanoseconds) are
modelled as Int, float64 arithmetic in the backoff computation as Rat.
-/

deriving instance DecidableEq for Except

namespace Cliex

/-! ## String helpers and the server-error classifier -/

/-- Embeds Go strings.Contains: does s contain pat as a substring. -/
def strContains (s pat : String) : Bool :=
  (List.range (s.length + 1)).any (fun i => ((s.toList.drop i).take pat.length) == pat.toList)

/-- Embeds IsServerError (src/unnamed/part_000): err != nil && strings.Contains(err.Error(), "code 5").
In this embedding an error is present exactly when a String is at hand, so the nil check is implicit. -/
def isServerError (err : String) : Bool :=
  strContains err "code 5"

/-! ## getSender -/

/-- Which resty sender method getSender picks. -/
inductive Sender where
  | get | head | post | put | patch | delete | options
  deriving DecidableEq, Repr

/-- Embeds getSender (src/unnamed/part_000): the switch over the method string;
the final return r.Get is the fallback for every unrecognized method. -/
def getSender (method : String) : Sender :=
  if method = "GET" ∨ method = "" then .get
  else if method = "HEAD" then .head
  else if method = "POST" then .post
  else if method = "PUT" then .put
  else if method = "PATCH" then .patch
  else if method = "DELETE" then .delete
  else if method = "OPTIONS" then .options
  else .get

/-! ## Backoff policy -/

/-- Go's float64-to-int64 conversion truncates toward zero. -/
def goTrunc (q : ℚ) : Int :=
  if 0 ≤ q then ⌊q⌋ else -⌊-q⌋

/-- Embeds getSleepTime (src/unnamed/part_000): base = min * 2^retry, then a uniform
draw r in [0,1) scales the interval [min, base), then clamp to max, then convert back
to a Duration.  The float64 arithmetic is modelled over the rationals; r stands for
the value returned by rand.Float64(). -/
def getSleepTime (retry : ℕ) (minW maxW : Int) (r : ℚ) : Int :=
  let s1 : ℚ := (minW : ℚ) * 2 ^ retry
  let s2 : ℚ := r * (s1 - (minW : ℚ)) + (minW : ℚ)
  let s3 : ℚ := if (maxW : ℚ) < s2 then (maxW : ℚ) else s2
  goTrunc s3

/-! ## RequestOpts and the retry executor -/

/-- The fields of RequestOpts (src/set.go, third section) that drive the control flow of
HTTP.request.  The payload-carrying fields (headers, query, cookies, body, result sink,
files, auth, trace flag, ...) only configure the resty request object handed to the
transport and cannot change which branch the executor takes, so they live inside the
abstract transport here. -/
structure RequestOpts where
  method : String := ""
  requestName : String := ""
  retryCount : Int := 0
  retryWaitTime : Int := 0
  retryMaxWaitTime : Int := 0
  infiniteRetry : Bool := false
  retryOnlyServerErrors : Bool := false
  noLogRetryError : Bool := false
  deriving DecidableEq, Repr

/-- Go math.MaxInt for 64-bit int; the sentinel request uses for InfiniteRetry. -/
def maxInt : Int := 2 ^ 63 - 1

/-- The error value request returns, kept structural so every underlying error stays
individually retrievable.
immediate: fmt.Errorf("failed %srequest: %w", name, err);
canceled: fmt.Errorf("request canceled, got errors: %w", errors.Join(errs...));
exhausted: fmt.Errorf("failed %srequest after retries, got errors: %w", name, errors.Join(errs...)). -/
inductive ReqError where
  | immediate (name : String) (err : String)
  | canceled (errs : List String)
  | exhausted (name : String) (errs : List String)
  deriving DecidableEq, Repr

/-- Embeds the retry loop of HTTP.request (for retry := 1; retry < opts.RetryCount; retry++).
invocations is both the number of transport dispatches made so far and the current value of
the loop counter retry (before iteration retry the initial dispatch plus retry-1 retries
have run).  fuel is the number of loop iterations left, retryCount - retry.  Each iteration
first computes a sleep via getSleepTime and waits on select(ctx.Done, timer); the sleep
changes only real time, never the returned value, so the model keeps just the cancellation
outcome for the wait, ctxDone applied to the retry number.  transport n is the outcome of the
n-th dispatch, counted from 0 for the initial dispatch done before the loop. -/
def retryLoop (transport : ℕ → Except String ℕ) (ctxDone : ℕ → Bool) (name : String) :
    ℕ → ℕ → List String → Except ReqError ℕ × ℕ
  | invocations, 0, errs => (.error (.exhausted name errs), invocations)
  | invocations, fuel + 1, errs =>
    if ctxDone invocations then
      (.error (.canceled errs), invocations)
    else
      match transport invocations with
      | .ok resp => (.ok resp, invocations + 1)
      | .error err => retryLoop transport ctxDone name (invocations + 1) fuel (errs ++ [err])

/-- Embeds HTTP.request (src/unnamed/part_000, second section): initial dispatch, the
fail-fast switch, the InfiniteRetry sentinel substitution, then the retry loop.  Returns
the result together with the total number of transport invocations. -/
def request (transport : ℕ → Except String ℕ) (ctxDone : ℕ → Bool) (opts : RequestOpts) :
    Except ReqError ℕ × ℕ :=
  let name := if opts.requestName ≠ "" then opts.requestName ++ " " else ""
  match transport 0 with
  | .ok resp => (.ok resp, 1)
  | .error err =>
    if (opts.retryCount = 0 ∧ opts.infiniteRetry = false) ∨
        (opts.retryOnlyServerErrors = true ∧ isServerError err = false) then
      (.error (.immediate name err), 1)
    else
      let rc : Int := if opts.infiniteRetry then maxInt else opts.retryCount
      retryLoop transport ctxDone name 1 (rc - 1).toNat []

/-! ## Response classification: errorHandler -/

/-- Embeds ServerErrorResponse (src/set.go, third section): the guessed shape of a server
error body. -/
structure ServerErrorResponse where
  message : String := ""
  error : String := ""
  details : String := ""
  text : String := ""
  code : ℕ := 0
  msg : String := ""
  err : String := ""
  deriving DecidableEq, Repr

/-- Embeds getErrorMessage (src/unnamed/part_000): first non-empty field in source order. -/
def getErrorMessage (r : ServerErrorResponse) : String :=
  if r.message ≠ "" then r.message
  else if r.error ≠ "" then r.error
  else if r.details ≠ "" then r.details
  else if r.text ≠ "" then r.text
  else if r.msg ≠ "" then r.msg
  else if r.err ≠ "" then r.err
  else ""

/-- Embeds the ErrorMapping table (src/set.go, third section), keyed by status code;
each entry is the message string of the corresponding sentinel error.  Status codes are
modelled as naturals (Go int, always non-negative for HTTP statuses). -/
def errorMapping : ℕ → Option String
  | 400 => some "code 400, bad request"
  | 401 => some "code 401, unauthorized"
  | 402 => some "code 402, payment required"
  | 403 => some "code 403, forbidden"
  | 404 => some "code 404, not found"
  | 405 => some "code 405, method not allowed"
  | 406 => some "code 406, not acceptable"
  | 407 => some "code 407, proxy authentication required"
  | 408 => some "code 408, request timeout"
  | 409 => some "code 409, conflict"
  | 410 => some "code 410, gone"
  | 411 => some "code 411, length required"
  | 412 => some "code 412, precondition failed"
  | 413 => some "code 413, payload too large"
  | 414 => some "code 414, URI too long"
  | 415 => some "code 415, unsupported media type"
  | 416 => some "code 416, range not satisfiable"
  | 417 => some "code 417, expectation failed"
  | 418 => some "code 418, I\x27m a teapot"
  | 421 => some "code 421, misdirected request"
  | 422 => some "code 422, unprocessable entity"
  | 423 => some "code 423, locked"
  | 424 => some "code 424, failed dependency"
  | 425 => some "code 425, too early"
  | 426 => some "code 426, upgrade required"
  | 428 => some "code 428, precondition required"
  | 429 => some "code 429, too many requests"
  | 431 => some "code 431, request header fields too large"
  | 451 => some "code 451, unavailable for legal reasons"
  | 500 => some "code 500, internal server error"
  | 501 => some "code 501, not implemented"
  | 502 => some "code 502, bad gateway"
  | 503 => some "code 503, service unavailable"
  | 504 => some "code 504, gateway timeout"
  | 505 => some "code 505, HTTP version not supported"
  | 506 => some "code 506, variant also negotiates"
  | 507 => some "code 507, insufficient storage"
  | 508 => some "code 508, loop detected"
  | 510 => some "code 510, not extended"
  | 511 => some "code 511, network authentication required"
  | 419 => some "code 419, page expired"
  | 420 => some "code 420, method failure"
  | 430 => some "code 430, request headers fields too large"
  | 450 => some "code 450, blocked by Windows Parental Controls"
  | 498 => some "code 498, invalid token"
  | 499 => some "code 499, token required"
  | 509 => some "code 509, bandwidth limit exceeded"
  | 529 => some "code 529, site is overloaded"
  | 530 => some "code 530, site is frozen"
  | 540 => some "code 540, temporarily disabled"
  | 598 => some "code 598, network read timeout error"
  | 599 => some "code 599, network connect timeout error"
  | 783 => some "code 783, unexpected token"
  | 999 => some "code 999, non-standard or restricted access error"
  | 440 => some "code 440, login timeout"
  | 449 => some "code 449, retry with"
  | 444 => some "code 444, no response"
  | 494 => some "code 494, request header too large"
  | 495 => some "code 495, SSL Certificate Error"
  | 496 => some "code 496, SSL Certificate Required"
  | 497 => some "code 497, HTTP request sent to HTTPS port"
  | 520 => some "code 520, web server returned an unknown error"
  | 521 => some "code 521, web server is down"
  | 522 => some "code 522, connection timed out"
  | 523 => some "code 523, origin is unreachable"
  | 524 => some "code 524, a timeout occurred"
  | 525 => some "code 525, SSL handshake failed"
  | 526 => some "code 526, invalid SSL certificate"
  | 527 => some "deprecated code 527, Railgun error"
  | 460 => some "code 460, client closed the connection"
  | 463 => some "code 463, too many X-Forwarded-For headers"
  | 464 => some "code 464, incompatible protocol versions"
  | 561 => some "code 561, unauthorized access"
  | _ => none

/-- The base error chosen by errorHandler before any body-derived adjustment: table entry,
or the code-only fallback fmt.Errorf("code %d", status). -/
inductive APIErr where
  | tableErr (msg : String)
  | codeErr (code : ℕ)
  deriving DecidableEq, Repr

/-- The classified error errorHandler returns: the api error possibly wrapped with an
extracted message or body excerpt via fmt.Errorf("%w: %s", apiErr, msg). -/
inductive HandlerErr where
  | plain (e : APIErr)
  | withMsg (e : APIErr) (msg : String)
  deriving DecidableEq, Repr

/-- Embeds maxLen (src/unnamed/part_000).  Go slices bytes; the model truncates characters. -/
def maxLen (a : String) (b : ℕ) : String :=
  if b < a.length then (a.toList.take b).asString else a

/-- Helper mirroring the lookup-then-fallback of apiErr in errorHandler. -/
def baseAPIErr (status : ℕ) : APIErr :=
  match errorMapping status with
  | some e => .tableErr e
  | none => .codeErr status

/-- The api error after the body-derived adjustment in errorHandler: when the parsed body
carries a non-zero code, apiErr = lang.Check(ErrorMapping[errBody.Code], apiErr) replaces
the status-derived error by the table entry for the body's code when there is one. -/
def adjustedAPIErr (status : ℕ) (errBody : ServerErrorResponse) : APIErr :=
  if errBody.code ≠ 0 then
    match errorMapping errBody.code with
    | some e => .tableErr e
    | none => baseAPIErr status
  else baseAPIErr status

/-- Embeds errorHandler (src/unnamed/part_000, second section).  status is r.StatusCode(),
body is string(r.Body()); parsed is the outcome of json.Unmarshal over the body (the JSON
decoder is an external collaborator, so its verdict is an input: some errBody when the body
parses, none otherwise).  Returns none where Go returns a nil error. -/
def errorHandler (status : ℕ) (body : String) (parsed : Option ServerErrorResponse) :
    Option HandlerErr :=
  if status < 400 then none
  else
    match parsed with
    | some errBody =>
      let errMsg := getErrorMessage errBody
      let apiErr := adjustedAPIErr status errBody
      if errMsg ≠ "" then some (.withMsg apiErr errMsg)
      else if body ≠ "" then some (.withMsg apiErr (maxLen body 100))
      else some (.plain apiErr)
    | none =>
      let apiErr := baseAPIErr status
      if body ≠ "" then some (.withMsg apiErr (maxLen body 100))
      else some (.plain apiErr)

/-! ## Config validation and HTTPSet.Add -/

/-- Embeds lang.Check for strings: the first value unless it is the zero value. -/
def checkStr (a b : String) : String := if a = "" then b else a

/-- Embeds lang.Check for integral values (durations, counters). -/
def checkInt (a b : Int) : Int := if a = 0 then b else a

/-- The configuration fields consumed by prepareAndValidate (src/unnamed/part_001).
The two logger fields are external collaborators and carry no validation logic, so they
are left out of the embedding. -/
structure Config where
  baseURL : String := ""
  userAgent : String := ""
  authToken : String := ""
  proxyAddress : String := ""
  requestTimeout : Int := 0
  caFiles : List String := []
  clientCertFile : String := ""
  clientKeyFile : String := ""
  insecure : Bool := false
  debug : Bool := false
  circuitBreaker : Bool := false
  circuitBreakerTimeout : Int := 0
  circuitBreakerFailures : Int := 0
  deriving DecidableEq, Repr

/-- Go defaults from src/unnamed/part_001, in nanoseconds. -/
def defaultUserAgent : String := "Golang HTTP client"

def defaultRequestTimeout : Int := 30 * 1000000000

def defaultCircuitBreakerTimeout : Int := 30 * 1000000000

def defaultCircuitBreakerFailures : Int := 5

/-- Embeds Config.prepareAndValidate (src/unnamed/part_001).  urlOk stands for
HTTPAddressRegexp.MatchString, an external regular-expression engine; the validation
logic is quantified over it.  Returns the defaulted config or the error message. -/
def prepareAndValidate (urlOk : String → Bool) (cfg : Config) : Except String Config :=
  let cfg := { cfg with
    userAgent := checkStr cfg.userAgent defaultUserAgent
    requestTimeout := checkInt cfg.requestTimeout defaultRequestTimeout }
  if cfg.baseURL ≠ "" ∧ urlOk cfg.baseURL = false then
    .error ("invalid base url address=" ++ cfg.baseURL)
  else if cfg.proxyAddress ≠ "" ∧ urlOk cfg.proxyAddress = false then
    .error ("invalid proxy address=" ++ cfg.proxyAddress)
  else if cfg.clientCertFile ≠ "" ∧ cfg.clientKeyFile = "" then
    .error "client key file is empty"
  else if cfg.clientKeyFile ≠ "" ∧ cfg.clientCertFile = "" then
    .error "client cert file is empty"
  else
    .ok { cfg with
      circuitBreakerTimeout := checkInt cfg.circuitBreakerTimeout defaultCircuitBreakerTimeout
      circuitBreakerFailures := checkInt cfg.circuitBreakerFailures defaultCircuitBreakerFailures }

/-- Embeds NewWithConfig (src/unnamed/part_000, second section) as far as HTTPSet.Add
observes it: validation either fails with an error or yields a client, which the Add
bookkeeping identifies with its prepared configuration.  The TLS key-pair loading path
touches the filesystem and is outside the model. -/
def newWithConfig (urlOk : String → Bool) (cfg : Config) : Except String Config :=
  prepareAndValidate urlOk cfg

/-- Embeds the loop of HTTPSet.Add (src/set.go, second section): clients are appended one
by one; the first config that fails validation aborts the loop with the error tagged by its
ordinal, fmt.Errorf("client %d: %w", i, err), leaving the appends made so far in place.
Returns the error (if any) together with the resulting client list. -/
def addLoop (urlOk : String → Bool) :
    ℕ → List Config → List Config → Option (ℕ × String) × List Config
  | _, acc, [] => (none, acc)
  | i, acc, cfg :: rest =>
    match newWithConfig urlOk cfg with
    | .error e => (some (i, e), acc)
    | .ok cli => addLoop urlOk (i + 1) (acc ++ [cli]) rest

/-- Embeds HTTPSet.Add (src/set.go, second section). -/
def addClients (urlOk : String → Bool) (clients : List Config) (cfgs : List Config) :
    Option (ℕ × String) × List Config :=
  addLoop urlOk 0 clients cfgs

/-! ## Circuit breaker registry -/

/-- Breaker configuration: gobreaker.Settings as filled by NewWithConfig
(src/unnamed/part_000, second section): Timeout = cfg.CircuitBreakerTimeout and
ReadyToTrip fires when consecutive failures reach cfg.CircuitBreakerFailures.
Time is abstracted to natural-number instants. -/
structure CBSettings where
  timeout : ℕ
  failureThreshold : ℕ
  deriving DecidableEq, Repr

/-- The three breaker states of spec section 4.3. -/
inductive CBState where
  | closed | opened | halfOpen
  deriving DecidableEq, Repr

/-- Modelled from the spec: the per-endpoint breaker state of section 4.3.  The breaker
implementation itself lives in the external sony/gobreaker dependency, which is not under
src/; only its configuration and per-URL registry are repository code.  expiry is the
instant at which an open breaker turns half-open. -/
structure Breaker where
  state : CBState
  consecFailures : ℕ
  expiry : ℕ
  deriving DecidableEq, Repr

/-- A fresh breaker: closed, zero counters. -/
def Breaker.new : Breaker := ⟨.closed, 0, 0⟩

/-- The outcome of one guarded call: the unit of work's own result, or the immediate
circuit-open rejection. -/
inductive CBResult where
  | ok (resp : ℕ)
  | workErr (e : String)
  | openErr
  deriving DecidableEq, Repr

/-- Modelled from the spec: one Execute step of the breaker state machine of section 4.3
(the implementation is the external sony/gobreaker dependency, not under src/).
work is the outcome the guarded unit of work would produce if run; the middle component
of the result records whether the work actually ran.  Closed: run, count consecutive
failures, trip to open (until now + timeout) when the count reaches the threshold, reset
on success.  Open: reject immediately until the timeout expires, then admit one trial as
in half-open.  Half-open: run the single trial; success closes the breaker, failure
re-opens it and restarts the timeout. -/
def Breaker.execute (cfg : CBSettings) (b : Breaker) (now : ℕ) (work : Except String ℕ) :
    CBResult × Bool × Breaker :=
  match b.state with
  | .opened =>
    if b.expiry ≤ now then
      match work with
      | .ok r => (.ok r, true, Breaker.new)
      | .error e => (.workErr e, true, ⟨.opened, 0, now + cfg.timeout⟩)
    else
      (.openErr, false, b)
  | .halfOpen =>
    match work with
    | .ok r => (.ok r, true, Breaker.new)
    | .error e => (.workErr e, true, ⟨.opened, 0, now + cfg.timeout⟩)
  | .closed =>
    match work with
    | .ok r => (.ok r, true, ⟨.closed, 0, b.expiry⟩)
    | .error e =>
      if cfg.failureThreshold ≤ b.consecFailures + 1 then
        (.workErr e, true, ⟨.opened, 0, now + cfg.timeout⟩)
      else
        (.workErr e, true, ⟨.closed, b.consecFailures + 1, b.expiry⟩)

/-- Embeds the SafeMap lookup of HTTP.Request (src/unnamed/part_000, second section) over
an association list keyed by the URL string. -/
def cbLookup : List (String × Breaker) → String → Option Breaker
  | [], _ => none
  | p :: rest, url => if p.1 = url then some p.2 else cbLookup rest url

/-- Stores the (possibly updated) breaker back under its URL key; a new key is appended.
In the source the breaker created on a miss is Set into the map and afterwards mutated
through its shared pointer, which is state-equivalent to writing the updated value back. -/
def cbSet : List (String × Breaker) → String → Breaker → List (String × Breaker)
  | [], url, b => [(url, b)]
  | p :: rest, url, b => if p.1 = url then (url, b) :: rest else p :: cbSet rest url b

/-- Embeds HTTP.Request (src/unnamed/part_000, second section): without circuit breaking
the work (c.request, the full retry pipeline) runs directly; with it, the breaker for the
URL is looked up or lazily created, and Execute guards the work.  Returns the call result,
whether the work ran (the transport side of the pipeline is only reached when it does),
and the updated registry. -/
def requestWithCB (cfg : CBSettings) (enableCB : Bool) (cbs : List (String × Breaker))
    (url : String) (now : ℕ) (work : Except String ℕ) :
    CBResult × Bool × List (String × Breaker) :=
  if enableCB = false then
    match work with
    | .ok r => (.ok r, true, cbs)
    | .error e => (.workErr e, true, cbs)
  else
    let cb := (cbLookup cbs url).getD Breaker.new
    let res := cb.execute cfg now work
    (res.1, res.2.1, cbSet cbs url res.2.2)

/-- n guarded calls to url whose work always fails, all at instant now: the consecutive
failures the claim's scenario feeds the breaker. -/
def applyFailures (cfg : CBSettings) (url : String) (now : ℕ) :
    ℕ → List (String × Breaker) → List (String × Breaker)
  | 0, cbs => cbs
  | n + 1, cbs => applyFailures cfg url now n (requestWithCB cfg true cbs url now (.error "boom")).2.2

/-! ## HTTPSet fan-out -/

/-- Embeds abstract.SafeSet.Add over a duplicate-free list of client indices. -/
def brokenAdd (broken : List ℕ) (i : ℕ) : List ℕ :=
  if broken.contains i then broken else broken ++ [i]

/-- Embeds abstract.SafeSet.Delete. -/
def brokenDelete (broken : List ℕ) (i : ℕ) : List ℕ :=
  broken.filter (fun j => j ≠ i)

/-- Embeds the two continue-filters of the launch loop in HTTPSet.Request (src/set.go,
second section): with useBroken only broken indices are dispatched, without it only
non-broken ones. -/
def shouldDispatch (useBroken : Bool) (broken : List ℕ) (i : ℕ) : Bool :=
  if useBroken && !(broken.contains i) then false
  else if !useBroken && broken.contains i then false
  else true

/-- Embeds the join loop of HTTPSet.Request: futures are awaited in index order; a
success removes the index from the broken set and collects the response, a failure adds
the index and collects the error tagged with the client index (fmt.Errorf("client %d: %w",
i, err)).  out i is the outcome of client i's own Request pipeline; disp is the dispatch
decision taken against the broken set as it stood at launch time. -/
def joinLoop (out : ℕ → Except String ℕ) (disp : ℕ → Bool) :
    List ℕ → List ℕ → List ℕ × List (ℕ × String) × List ℕ
  | [], broken => ([], [], broken)
  | i :: rest, broken =>
    if disp i then
      match out i with
      | .ok r =>
        let jres := joinLoop out disp rest (brokenDelete broken i)
        (r :: jres.1, jres.2.1, jres.2.2)
      | .error e =>
        let jres := joinLoop out disp rest (brokenAdd broken i)
        (jres.1, (i, e) :: jres.2.1, jres.2.2)
    else
      joinLoop out disp rest broken

/-- Embeds HTTPSet.Request (src/set.go, second section) for a set of n clients whose
per-client outcomes for this call are out: returns the collected responses, the
index-tagged error list joined into the returned error, and the updated broken set.
The launched futures run concurrently but results are attributed by index in the join
loop, so the sequential index-order fold is the deterministic observable behaviour. -/
def setRequest (out : ℕ → Except String ℕ) (n : ℕ) (broken : List ℕ) (useBroken : Bool) :
    List ℕ × List (ℕ × String) × List ℕ :=
  joinLoop out (shouldDispatch useBroken broken) (List.range n) broken

/-- Embeds HTTPSet.GetBroken (src/set.go, second section). -/
def getBroken (broken : List ℕ) : List ℕ :=
  if broken.length = 0 then [] else broken

/-- The aggregator state UseBroken derives: same clients and broken set, useBroken set;
none when the broken set is empty (the ok=false return). -/
structure HTTPSetView where
  numClients : ℕ
  broken : List ℕ
  useBroken : Bool
  deriving DecidableEq, Repr

/-- Embeds HTTPSet.UseBroken (src/set.go, second section). -/
def useBrokenView (s : HTTPSetView) : Option HTTPSetView :=
  if s.broken.length = 0 then none
  else some { numClients := s.numClients, broken := s.broken, useBroken := true }

/-! ## Lemmas about the retry loop -/

theorem range_map_shift {α : Type} (g : ℕ → α) (f j : ℕ) :
    g j :: (List.range f).map (fun t => g (j + 1 + t)) =
      (List.range (f + 1)).map (fun t => g (j + t)) := by
  rw [List.range_succ_eq_map, List.map_cons, List.map_map]
  refine congrArg₂ _ (by rw [Nat.add_zero]) ?_
  apply List.map_congr_left
  intro t _
  simp only [Function.comp_apply, Nat.succ_eq_add_one]
  congr 1
  omega

theorem retryLoop_allFail (transport : ℕ → Except String ℕ) (ctxDone : ℕ → Bool)
    (name : String) (errF : ℕ → String)
    (hT : ∀ i, transport i = .error (errF i)) (hC : ∀ i, ctxDone i = false) :
    ∀ (fuel j : ℕ) (acc : List String),
      retryLoop transport ctxDone name j fuel acc =
        (.error (.exhausted name (acc ++ (List.range fuel).map (fun t => errF (j + t)))),
          j + fuel) := by
  intro fuel
  induction fuel with
  | zero => intro j acc; simp [retryLoop]
  | succ f ih =>
    intro j acc
    rw [retryLoop, hC j, hT j]
    simp only [Bool.false_eq_true, if_false]
    rw [ih (j + 1) (acc ++ [errF j])]
    rw [List.append_assoc, List.singleton_append, range_map_shift]
    refine congrArg₂ _ rfl ?_
    omega

theorem retryLoop_succeeds (transport : ℕ → Except String ℕ) (ctxDone : ℕ → Bool)
    (name : String) (errF : ℕ → String) (k r : ℕ)
    (hT : ∀ i, i < k → transport i = .error (errF i)) (hk : transport k = .ok r)
    (hC : ∀ i, ctxDone i = false) :
    ∀ (fuel j : ℕ) (acc : List String), j ≤ k → k + 1 ≤ j + fuel →
      retryLoop transport ctxDone name j fuel acc = (.ok r, k + 1) := by
  intro fuel
  induction fuel with
  | zero => intro j acc hj hf; omega
  | succ f ih =>
    intro j acc hj hf
    rw [retryLoop, hC j]
    simp only [Bool.false_eq_true, if_false]
    rcases Nat.lt_or_ge j k with hlt | hge
    · rw [hT j hlt]
      exact ih (j + 1) (acc ++ [errF j]) hlt (by omega)
    · have hjk : j = k := le_antisymm hj hge
      subst hjk
      rw [hk]

theorem retryLoop_cancel (transport : ℕ → Except String ℕ) (ctxDone : ℕ → Bool)
    (name : String) (errF : ℕ → String) (J : ℕ)
    (hT : ∀ i, i < J → transport i = .error (errF i))
    (hC : ∀ i, i < J → ctxDone i = false) (hJ : ctxDone J = true) :
    ∀ (fuel j : ℕ) (acc : List String), j ≤ J → J + 1 ≤ j + fuel →
      retryLoop transport ctxDone name j fuel acc =
        (.error (.canceled (acc ++ (List.range (J - j)).map (fun t => errF (j + t)))), J) := by
  intro fuel
  induction fuel with
  | zero => intro j acc hj hf; omega
  | succ f ih =>
    intro j acc hj hf
    rcases Nat.lt_or_ge j J with hlt | hge
    · rw [retryLoop, hC j hlt, hT j hlt]
      simp only [Bool.false_eq_true, if_false]
      rw [ih (j + 1) (acc ++ [errF j]) hlt (by omega)]
      rw [List.append_assoc, List.singleton_append]
      have hJj : J - j = (J - (j + 1)) + 1 := by omega
      rw [hJj, range_map_shift]
    · have hjJ : j = J := le_antisymm hj hge
      subst hjJ
      rw [retryLoop, hJ]
      simp [Nat.sub_self]

/-! ## Claim C1: retry exhaustion -/

/-- Claim C1, counterexample to the claim as stated: with RetryCount = N = 1, InfiniteRetry
unset and an always-failing transport, request does invoke the transport exactly N = 1 times,
but the aggregate error carries 0 underlying errors, not N = 1: the initial dispatch's error
is only logged, never folded into the aggregate. -/
theorem request_allFail_counterexample :
    request (fun _ => .error "boom") (fun _ => false) { retryCount := 1 } =
      (.error (.exhausted "" []), 1) ∧ ([] : List String).length ≠ 1 := by
  decide

/-- Claim C1 (amended): for RetryCount = N ≥ 1 with InfiniteRetry unset, an always-failing
transport and an uncancelled context, and the retry path actually taken (RetryOnlyServerErrors
unset, or the first error classified as a server error), request returns an aggregate error
containing exactly the N - 1 errors of the retry dispatches — each individually retrievable,
the initial dispatch's error excluded — and the transport is invoked exactly N times. -/
theorem request_allFail_invocations_and_aggregate (opts : RequestOpts)
    (transport : ℕ → Except String ℕ) (ctxDone : ℕ → Bool) (errF : ℕ → String) (N : ℕ)
    (hN : 1 ≤ N) (hrc : opts.retryCount = (N : Int)) (hinf : opts.infiniteRetry = false)
    (hso : opts.retryOnlyServerErrors = false ∨ isServerError (errF 0) = true)
    (hT : ∀ i, transport i = .error (errF i)) (hC : ∀ i, ctxDone i = false) :
    request transport ctxDone opts =
      (.error (.exhausted (if opts.requestName ≠ "" then opts.requestName ++ " " else "")
        ((List.range (N - 1)).map (fun t => errF (t + 1)))), N) ∧
    ((List.range (N - 1)).map (fun t => errF (t + 1))).length = N - 1 := by
  constructor
  · have hguard : ¬ ((opts.retryCount = 0 ∧ opts.infiniteRetry = false) ∨
        (opts.retryOnlyServerErrors = true ∧ isServerError (errF 0) = false)) := by
      rintro (⟨h0, _⟩ | ⟨h1, h2⟩)
      · rw [hrc] at h0
        have hN0 : N = 0 := by exact_mod_cast h0
        omega
      · rcases hso with h | h
        · rw [h] at h1; exact Bool.false_ne_true h1
        · rw [h] at h2; exact Bool.false_ne_true h2.symm
    simp only [request, hT 0, if_neg hguard, hinf, Bool.false_eq_true, if_false, hrc]
    have hfuel : ((N : Int) - 1).toNat = N - 1 := by omega
    rw [hfuel, retryLoop_allFail transport ctxDone _ errF hT hC (N - 1) 1 []]
    rw [List.nil_append]
    have hlist : (List.range (N - 1)).map (fun t => errF (1 + t)) =
        (List.range (N - 1)).map (fun t => errF (t + 1)) := by
      apply List.map_congr_left
      intro t _
      congr 1
      omega
    have hnum : 1 + (N - 1) = N := by omega
    rw [hlist, hnum]
    rw [if_neg]
    rintro (⟨h0, -⟩ | ⟨h1, h2⟩)
    · have hN0 : N = 0 := by exact_mod_cast h0
      omega
    · rcases hso with h | h
      · rw [h] at h1; exact Bool.false_ne_true h1
      · rw [h] at h2; exact Bool.false_ne_true h2.symm
  · rw [List.length_map, List.length_range]

/-- Claim C1, witness: N = 3 with errors e1, e2 after the initial e0; exactly 3 invocations
and the aggregate [e1, e2] of length 2. -/
theorem request_allFail_witness :
    request (fun i => .error (String.append "e" (toString i))) (fun _ => false)
        { retryCount := 3 } =
      (.error (.exhausted "" ["e1", "e2"]), 3) := by
  have h := request_allFail_invocations_and_aggregate { retryCount := 3 }
    (fun i => .error (String.append "e" (toString i))) (fun _ => false)
    (fun i => String.append "e" (toString i)) 3
    (by decide) (by decide) (by decide) (Or.inl (by decide))
    (fun i => rfl) (fun i => rfl)
  rw [h.1]
  rfl

/-! ## Claim C2: k failures then success -/

/-- Claim C2, counterexample to the claim as stated: RequestOpts with RetryCount = 2 > k = 1
and RetryOnlyServerErrors set, transport failing once with a 400-classified error then
succeeding: request does not return the success after k+1 = 2 invocations; it fails
immediately after 1 invocation because the error is not classified as a server error. -/
theorem request_eventualSuccess_counterexample :
    request (fun i => if i = 0 then .error "code 400, bad request" else .ok 42)
        (fun _ => false) { retryCount := 2, retryOnlyServerErrors := true } =
      (.error (.immediate "" "code 400, bad request"), 1) ∧
    (Except.error (ReqError.immediate "" "code 400, bad request") : Except ReqError ℕ) ≠
      .ok 42 := by
  decide

/-- Claim C2 (amended): for every k ≥ 0 and RequestOpts with RetryCount > k (RetryCount in
int64 range), provided the retry path applies (RetryOnlyServerErrors unset, or the first
error classified as a server error), a transport failing on exactly its first k dispatches
and succeeding on the next makes request return that success with no error, the transport
invoked exactly k + 1 times, under an uncancelled context. -/
theorem request_eventualSuccess (opts : RequestOpts) (transport : ℕ → Except String ℕ)
    (ctxDone : ℕ → Bool) (errF : ℕ → String) (k r : ℕ)
    (hso : opts.retryOnlyServerErrors = false ∨ isServerError (errF 0) = true)
    (hrc : (k : Int) < opts.retryCount) (hmax : opts.retryCount ≤ maxInt)
    (hT : ∀ i, i < k → transport i = .error (errF i)) (hk : transport k = .ok r)
    (hC : ∀ i, ctxDone i = false) :
    request transport ctxDone opts = (.ok r, k + 1) := by
  rcases Nat.eq_zero_or_pos k with hk0 | hkpos
  · subst hk0
    simp only [request, hk]
  · have h0 : transport 0 = .error (errF 0) := hT 0 hkpos
    have hguard : ¬ ((opts.retryCount = 0 ∧ opts.infiniteRetry = false) ∨
        (opts.retryOnlyServerErrors = true ∧ isServerError (errF 0) = false)) := by
      rintro (⟨hz, _⟩ | ⟨h1, h2⟩)
      · rw [hz] at hrc; omega
      · rcases hso with h | h
        · rw [h] at h1; exact Bool.false_ne_true h1
        · rw [h] at h2; exact Bool.false_ne_true h2.symm
    simp only [request, h0, if_neg hguard]
    apply retryLoop_succeeds transport ctxDone _ errF k r hT hk hC _ 1 [] hkpos
    have hrc' : (k : Int) < if opts.infiniteRetry then maxInt else opts.retryCount := by
      rcases opts.infiniteRetry with _ | _
      · simpa using hrc
      · simp only [if_true]; exact lt_of_lt_of_le hrc hmax
    omega

/-- Claim C2, witness: k = 2 failures then success 42 with RetryCount = 5: the response is
returned with no error after exactly 3 invocations. -/
theorem request_eventualSuccess_witness :
    request (fun i => if i < 2 then .error "boom" else .ok 42) (fun _ => false)
        { retryCount := 5 } = (.ok 42, 3) :=
  request_eventualSuccess { retryCount := 5 }
    (fun i => if i < 2 then .error "boom" else .ok 42) (fun _ => false) (fun _ => "boom") 2 42
    (Or.inl (by decide)) (by decide) (by decide)
    (fun i hi => by interval_cases i <;> rfl) (by rfl) (fun i => rfl)

/-! ## Claim C4: RetryOnlyServerErrors with a client error -/

/-- Claim C4: with RetryOnlyServerErrors set and the first dispatch failing with an error
not classified as a server error (such as the 400 "code 400, bad request" error), request
never retries: the transport is invoked exactly once and the call fails immediately with
the dispatch error wrapped with the request name. -/
theorem request_clientError_failsFast (opts : RequestOpts) (transport : ℕ → Except String ℕ)
    (ctxDone : ℕ → Bool) (err : String)
    (hso : opts.retryOnlyServerErrors = true) (hT : transport 0 = .error err)
    (hsrv : isServerError err = false) :
    request transport ctxDone opts =
      (.error (.immediate (if opts.requestName ≠ "" then opts.requestName ++ " " else "") err),
        1) := by
  simp only [request, hT]
  rw [if_pos (Or.inr ⟨hso, hsrv⟩)]

/-- Claim C4, witness: a 400-classified failure under RetryOnlyServerErrors with a positive
retry budget still returns after exactly one invocation, wrapped with the request name. -/
theorem request_clientError_failsFast_witness :
    request (fun _ => .error "code 400, bad request") (fun _ => false)
        { requestName := "job", retryCount := 7, retryOnlyServerErrors := true } =
      (.error (.immediate "job " "code 400, bad request"), 1) := by
  have h := request_clientError_failsFast
    { requestName := "job", retryCount := 7, retryOnlyServerErrors := true }
    (fun _ => .error "code 400, bad request") (fun _ => false) "code 400, bad request"
    (by decide) (by rfl) (by decide)
  rw [h]
  rfl

/-! ## Claim C7: cancellation during the backoff wait -/

/-- Claim C7, counterexample to the claim as stated: transport always fails with "boom",
context cancelled during the first backoff wait (after the initial dispatch's failure was
seen): request returns promptly with no further dispatch, but the aggregate it returns is
empty — the error already seen is not in it, so it is not an aggregate of all errors seen
so far. -/
theorem request_cancelMidBackoff_counterexample :
    request (fun _ => .error "boom") (fun i => i == 1) { retryCount := 5 } =
      (.error (.canceled []), 1) ∧ ([] : List String) ≠ ["boom"] := by
  decide

/-- Claim C7 (amended): if the context is cancelled during the J-th backoff wait (J ≥ 1,
the retry path applying and not yet exhausted), request returns without dispatching any
further attempt — exactly the J dispatches already made — and the returned error aggregates
exactly the J - 1 retry-dispatch errors seen so far, the initial dispatch's error excluded. -/
theorem request_cancelMidBackoff (opts : RequestOpts) (transport : ℕ → Except String ℕ)
    (ctxDone : ℕ → Bool) (errF : ℕ → String) (J : ℕ) (hJ1 : 1 ≤ J)
    (hso : opts.retryOnlyServerErrors = false ∨ isServerError (errF 0) = true)
    (hrc : (J : Int) < opts.retryCount) (hmax : opts.retryCount ≤ maxInt)
    (hT : ∀ i, i < J → transport i = .error (errF i))
    (hC : ∀ i, i < J → ctxDone i = false) (hJ : ctxDone J = true) :
    request transport ctxDone opts =
      (.error (.canceled ((List.range (J - 1)).map (fun t => errF (t + 1)))), J) := by
  have h0 : transport 0 = .error (errF 0) := hT 0 hJ1
  have hguard : ¬ ((opts.retryCount = 0 ∧ opts.infiniteRetry = false) ∨
      (opts.retryOnlyServerErrors = true ∧ isServerError (errF 0) = false)) := by
    rintro (⟨hz, _⟩ | ⟨h1, h2⟩)
    · rw [hz] at hrc; omega
    · rcases hso with h | h
      · rw [h] at h1; exact Bool.false_ne_true h1
      · rw [h] at h2; exact Bool.false_ne_true h2.symm
  simp only [request, h0, if_neg hguard]
  have hmain := retryLoop_cancel transport ctxDone
    (if opts.requestName ≠ "" then opts.requestName ++ " " else "") errF J hT hC hJ
    ((if opts.infiniteRetry then maxInt else opts.retryCount) - 1).toNat 1 [] hJ1 ?_
  · rw [hmain, List.nil_append]
    refine congrArg₂ _ (congrArg _ (congrArg _ ?_)) rfl
    apply List.map_congr_left
    intro t _
    congr 1
    omega
  · have hrc' : (J : Int) < if opts.infiniteRetry then maxInt else opts.retryCount := by
      rcases opts.infiniteRetry with _ | _
      · simpa using hrc
      · simp only [if_true]; exact lt_of_lt_of_le hrc hmax
    omega

/-- Claim C7, witness: cancellation during the third backoff wait (J = 3) of an
always-failing request with budget 9: exactly 3 dispatches and the two retry errors e1, e2
in the aggregate. -/
theorem request_cancelMidBackoff_witness :
    request (fun i => .error (String.append "e" (toString i))) (fun i => i == 3)
        { retryCount := 9 } = (.error (.canceled ["e1", "e2"]), 3) := by
  have h := request_cancelMidBackoff { retryCount := 9 }
    (fun i => .error (String.append "e" (toString i))) (fun i => i == 3)
    (fun i => String.append "e" (toString i)) 3
    (by decide) (Or.inl (by decide)) (by decide) (by decide)
    (fun i _ => rfl) (fun i hi => by interval_cases i <;> rfl) (by rfl)
  rw [h]
  rfl

/-! ## Claim C3: backoff bounds -/

/-- Claim C3: for every retry attempt n ≥ 1, minimum wait min ≥ 0, maximum wait max ≥ min,
and every value r in [0, 1) drawn from the random source, the computed backoff
getSleepTime n min max r — base = min * 2^n, a uniform value in [min, base), clamped
to max — lies between min and max inclusive. -/
theorem getSleepTime_bounds (n : ℕ) (minW maxW : Int) (r : ℚ)
    (hn : 1 ≤ n) (h0 : 0 ≤ minW) (hmm : minW ≤ maxW) (hr0 : 0 ≤ r) (hr1 : r < 1) :
    minW ≤ getSleepTime n minW maxW r ∧ getSleepTime n minW maxW r ≤ maxW := by
  have hm0 : (0 : ℚ) ≤ (minW : ℚ) := by exact_mod_cast h0
  have hpow : (1 : ℚ) ≤ 2 ^ n := one_le_pow₀ (by norm_num)
  have hbase : (minW : ℚ) ≤ (minW : ℚ) * 2 ^ n := le_mul_of_one_le_right hm0 hpow
  have hs2 : (minW : ℚ) ≤ r * ((minW : ℚ) * 2 ^ n - (minW : ℚ)) + (minW : ℚ) := by
    have := mul_nonneg hr0 (sub_nonneg.mpr hbase)
    linarith
  rw [getSleepTime, goTrunc]
  by_cases hclamp : (maxW : ℚ) < r * ((minW : ℚ) * 2 ^ n - (minW : ℚ)) + (minW : ℚ)
  · rw [if_pos hclamp, if_pos (by exact_mod_cast le_trans h0 hmm), Int.floor_intCast]
    exact ⟨hmm, le_refl _⟩
  · rw [if_neg hclamp, if_pos (le_trans hm0 hs2)]
    constructor
    · exact Int.le_floor.mpr hs2
    · calc ⌊r * ((minW : ℚ) * 2 ^ n - (minW : ℚ)) + (minW : ℚ)⌋
          ≤ ⌊(maxW : ℚ)⌋ := Int.floor_mono (not_lt.mp hclamp)
        _ = maxW := Int.floor_intCast maxW

/-- Claim C3, witness: n = 2, min = 100, max = 1000, r = 0 gives a backoff within
[100, 1000]. -/
theorem getSleepTime_bounds_witness :
    (100 : Int) ≤ getSleepTime 2 100 1000 0 ∧ getSleepTime 2 100 1000 0 ≤ 1000 :=
  getSleepTime_bounds 2 100 1000 0 (by decide) (by decide) (by decide) (by decide) (by decide)

/-! ## Claim C10: getSender fallback -/

/-- Claim C10: every method string outside the recognized set — GET, the empty string,
HEAD, POST, PUT, PATCH, DELETE, OPTIONS — is silently dispatched with the GET sender:
getSender returns the GET sender as its fallback for every unrecognized method. -/
theorem getSender_fallback_get (m : String)
    (h : m ∉ ["GET", "", "HEAD", "POST", "PUT", "PATCH", "DELETE", "OPTIONS"]) :
    getSender m = .get := by
  simp only [List.mem_cons, not_or] at h
  obtain ⟨h1, h2, h3, h4, h5, h6, h7, h8, -⟩ := h
  rw [getSender, if_neg (by tauto), if_neg h3, if_neg h4, if_neg h5, if_neg h6, if_neg h7,
    if_neg h8]

/-- Claim C10, witness: TRACE and lowercase get are unrecognized and fall back to the GET
sender. -/
theorem getSender_fallback_get_witness :
    getSender "TRACE" = .get ∧ getSender "get" = .get :=
  ⟨getSender_fallback_get "TRACE" (by decide), getSender_fallback_get "get" (by decide)⟩

/-! ## Claim C9: response classification -/

/-- Claim C9, counterexample to the claim as stated: a 301 response is not in the 2xx range,
yet errorHandler returns nil for it — the classifier only fires for status codes of 400 and
above, so 1xx and 3xx responses are never mapped to an error. -/
theorem errorHandler_non2xx_counterexample :
    errorHandler 301 "" none = none ∧ ¬ (200 ≤ 301 ∧ 301 ≤ 299) := by
  decide

/-- Claim C9 (amended): errorHandler classifies every response with status ≥ 400 (not every
non-2xx response): such a response always yields a non-nil error; a response with status
< 400 — 2xx, but also 1xx and 3xx — yields nil.  The error carries the status code via the
4xx/5xx/non-standard code table (the code-only fallback when the table misses), and when the
body parses as a known error shape with a non-empty best-effort message, that message is
attached. -/
theorem errorHandler_classifies (status : ℕ) (body : String)
    (parsed : Option ServerErrorResponse) :
    (400 ≤ status → (errorHandler status body parsed).isSome = true) ∧
    (status < 400 → errorHandler status body parsed = none) ∧
    (400 ≤ status → errorHandler status "" none = some (.plain (baseAPIErr status))) ∧
    (∀ b, 400 ≤ status → parsed = some b → getErrorMessage b ≠ "" →
      errorHandler status body parsed =
        some (.withMsg (adjustedAPIErr status b) (getErrorMessage b))) := by
  refine ⟨?_, ?_, ?_, ?_⟩
  · intro h4
    rw [errorHandler.eq_def, if_neg (by omega)]
    rcases parsed with _ | b
    · dsimp only
      split_ifs <;> rfl
    · dsimp only
      split_ifs <;> rfl
  · intro h4
    rw [errorHandler.eq_def, if_pos h4]
  · intro h4
    rw [errorHandler.eq_def, if_neg (by omega)]
    dsimp only
    rw [if_neg (by simp)]
  · intro b h4 hp hm
    subst hp
    rw [errorHandler.eq_def, if_neg (by omega)]
    dsimp only
    rw [if_pos hm]

/-- Claim C9, witness: 404 with empty body is classified; 200 is not; 500 with empty body
carries the table error for 500; 502 with a parsed body carrying message "oops" attaches
that message. -/
theorem errorHandler_classifies_witness :
    (errorHandler 404 "" none).isSome = true ∧
    errorHandler 200 "" none = none ∧
    errorHandler 500 "" none = some (.plain (baseAPIErr 500)) ∧
    errorHandler 502 "raw" (some { message := "oops" }) =
      some (.withMsg (adjustedAPIErr 502 { message := "oops" })
        (getErrorMessage { message := "oops" })) :=
  ⟨(errorHandler_classifies 404 "" none).1 (by decide),
   (errorHandler_classifies 200 "" none).2.1 (by decide),
   (errorHandler_classifies 500 "" none).2.2.1 (by decide),
   (errorHandler_classifies 502 "raw" (some { message := "oops" })).2.2.2
     { message := "oops" } (by decide) rfl (by decide)⟩

/-! ## Claim C8: HTTPSet.Add -/

theorem addLoop_preserves_prior (urlOk : String → Bool) :
    ∀ (cfgs : List Config) (i0 : ℕ) (acc : List Config),
      ((addLoop urlOk i0 acc cfgs).2).take acc.length = acc := by
  intro cfgs
  induction cfgs with
  | nil => intro i0 acc; simp [addLoop]
  | cons c rest ih =>
    intro i0 acc
    rw [addLoop]
    cases h : newWithConfig urlOk c with
    | error e => simp
    | ok cli =>
      have h2 := ih (i0 + 1) (acc ++ [cli])
      have h3 : ((addLoop urlOk (i0 + 1) (acc ++ [cli]) rest).2).take acc.length = acc := by
        have h4 := congrArg (List.take acc.length) h2
        rw [List.take_take, List.length_append, List.length_singleton] at h4
        rw [Nat.min_eq_left (by omega)] at h4
        rw [h4, List.take_left]
      exact h3

theorem addLoop_error_ordinal (urlOk : String → Bool) :
    ∀ (cfgs : List Config) (i0 : ℕ) (acc : List Config) (i : ℕ) (c : Config) (e : String),
      cfgs[i]? = some c → newWithConfig urlOk c = .error e →
      (∀ j cj, j < i → cfgs[j]? = some cj → ∃ cl, newWithConfig urlOk cj = .ok cl) →
      (addLoop urlOk i0 acc cfgs).1 = some (i0 + i, e) := by
  intro cfgs
  induction cfgs with
  | nil => intro i0 acc i c e hi; simp at hi
  | cons c0 rest ih =>
    intro i0 acc i c e hi hfail hok
    cases i with
    | zero =>
      simp only [List.getElem?_cons_zero, Option.some.injEq] at hi
      subst hi
      rw [addLoop, hfail]
      simp
    | succ i' =>
      obtain ⟨cl, hcl⟩ := hok 0 c0 (Nat.succ_pos _) (by simp)
      rw [addLoop, hcl]
      have hrec := ih (i0 + 1) (acc ++ [cl]) i' c e (by simpa using hi) hfail
        (fun j cj hj hcj => hok (j + 1) cj (by omega) (by simpa using hcj))
      rw [hrec]
      refine congrArg _ (congrArg₂ _ ?_ rfl)
      omega

/-- Claim C8: when HTTPSet.Add is given a batch of configs whose first validation failure
sits at ordinal i, the returned error reports exactly that ordinal (fmt.Errorf("client %d:
%w", i, err)), and the client list that existed before the call is unchanged: it is still
the unaltered prefix of the resulting list, so no previously added client's index is
corrupted. -/
theorem httpSetAdd_ordinal_and_state (urlOk : String → Bool)
    (clients cfgs : List Config) (i : ℕ) (c : Config) (e : String)
    (hi : cfgs[i]? = some c) (hfail : newWithConfig urlOk c = .error e)
    (hok : ∀ j cj, j < i → cfgs[j]? = some cj → ∃ cl, newWithConfig urlOk cj = .ok cl) :
    (addClients urlOk clients cfgs).1 = some (i, e) ∧
    ((addClients urlOk clients cfgs).2).take clients.length = clients := by
  constructor
  · have h := addLoop_error_ordinal urlOk cfgs 0 clients i c e hi hfail hok
    rw [addClients, h]
    simp
  · exact addLoop_preserves_prior urlOk cfgs 0 clients

/-- Claim C8, witness: one pre-existing client, a batch whose second config (ordinal 1)
carries a cert file without a key file: the error names ordinal 1 with the validation
message, and the pre-existing client list is untouched. -/
theorem httpSetAdd_ordinal_and_state_witness :
    (addClients (fun _ => true) [{}] [{}, { clientCertFile := "crt" }]).1 =
      some (1, "client key file is empty") ∧
    ((addClients (fun _ => true) [{}] [{}, { clientCertFile := "crt" }]).2).take 1 = [{}] :=
  httpSetAdd_ordinal_and_state (fun _ => true) [{}] [{}, { clientCertFile := "crt" }]
    1 { clientCertFile := "crt" } "client key file is empty" (by rfl) (by rfl)
    (fun j cj hj hcj => by
      interval_cases j
      simp only [List.getElem?_cons_zero, Option.some.injEq] at hcj
      subst hcj
      exact ⟨_, rfl⟩)

/-! ## Claim C5: circuit breaker registry -/

theorem cbLookup_cbSet_same (url : String) (b : Breaker) :
    ∀ cbs, cbLookup (cbSet cbs url b) url = some b := by
  intro cbs
  induction cbs with
  | nil => simp [cbSet, cbLookup]
  | cons p rest ih =>
    by_cases h : p.1 = url
    · simp [cbSet, cbLookup, h]
    · simp [cbSet, cbLookup, h, ih]

theorem cbLookup_cbSet_other (url u : String) (b : Breaker) (hne : u ≠ url) :
    ∀ cbs, cbLookup (cbSet cbs url b) u = cbLookup cbs u := by
  intro cbs
  have hne' : ¬ (url = u) := fun h => hne h.symm
  induction cbs with
  | nil => simp [cbSet, cbLookup, hne']
  | cons p rest ih =>
    by_cases h : p.1 = url
    · simp [cbSet, cbLookup, h, hne']
    · simp [cbSet, cbLookup, h, ih]

theorem applyFailures_trips (cfg : CBSettings) (url : String) :
    ∀ (n : ℕ) (c : ℕ) (cbs : List (String × Breaker)),
      (cbLookup cbs url).getD Breaker.new = ⟨.closed, c, 0⟩ →
      c + n = cfg.failureThreshold → 1 ≤ n →
      cbLookup (applyFailures cfg url 0 n cbs) url = some ⟨.opened, 0, cfg.timeout⟩ := by
  intro n
  induction n with
  | zero => intro c cbs hget hsum h1; omega
  | succ n' ih =>
    intro c cbs hget hsum h1
    rw [applyFailures]
    rcases Nat.eq_zero_or_pos n' with hn0 | hnpos
    · subst hn0
      have hstep : (requestWithCB cfg true cbs url 0 (.error "boom")).2.2 =
          cbSet cbs url ⟨.opened, 0, 0 + cfg.timeout⟩ := by
        simp only [requestWithCB, Bool.true_eq_false, if_false, hget, Breaker.execute]
        rw [if_pos (by omega)]
      rw [applyFailures, hstep, cbLookup_cbSet_same]
      simp
    · have hstep : (requestWithCB cfg true cbs url 0 (.error "boom")).2.2 =
          cbSet cbs url ⟨.closed, c + 1, 0⟩ := by
        simp only [requestWithCB, Bool.true_eq_false, if_false, hget, Breaker.execute]
        rw [if_neg (by omega)]
      rw [hstep]
      exact ih (c + 1) (cbSet cbs url ⟨.closed, c + 1, 0⟩)
        (by rw [cbLookup_cbSet_same]; rfl) (by omega) hnpos

/-- The registry state after F consecutive failing calls to url, all at instant 0,
starting from the empty registry — the setup of the claim's scenario. -/
def cbScenario (cfg : CBSettings) (url : String) : List (String × Breaker) :=
  applyFailures cfg url 0 cfg.failureThreshold []

theorem applyFailures_other (cfg : CBSettings) (url u : String) (hne : u ≠ url) (now : ℕ) :
    ∀ (n : ℕ) (cbs : List (String × Breaker)),
      cbLookup (applyFailures cfg url now n cbs) u = cbLookup cbs u := by
  intro n
  induction n with
  | zero => intro cbs; rw [applyFailures]
  | succ n' ih =>
    intro cbs
    rw [applyFailures, ih]
    simp only [requestWithCB, Bool.true_eq_false, if_false]
    rw [cbLookup_cbSet_other url u _ hne]

/-- Claim C5: with circuit breaking enabled, after F = failureThreshold consecutive failing
calls to endpoint E (from a fresh registry, all at instant 0), the breaker for E is open
until instant timeout; a call to E before that instant is rejected with the circuit-open
error and the guarded work — hence the transport — does not run; a call at or after that
instant is allowed through as the half-open trial; endpoint E2 has no breaker and its calls
run unaffected; and the breaker for a URL is created lazily on first use and cached: one
registry entry per distinct URL string. -/
theorem circuitBreaker_scenario (cfg : CBSettings) (E E2 : String) (hne : E2 ≠ E)
    (hF : 1 ≤ cfg.failureThreshold) :
    cbLookup (cbScenario cfg E) E = some ⟨.opened, 0, cfg.timeout⟩ ∧
    (∀ t work, t < cfg.timeout →
      (requestWithCB cfg true (cbScenario cfg E) E t work).1 = .openErr ∧
      (requestWithCB cfg true (cbScenario cfg E) E t work).2.1 = false) ∧
    (∀ t work, cfg.timeout ≤ t →
      (requestWithCB cfg true (cbScenario cfg E) E t work).2.1 = true) ∧
    cbLookup (cbScenario cfg E) E2 = none ∧
    (∀ t work, (requestWithCB cfg true (cbScenario cfg E) E2 t work).2.1 = true) ∧
    (∀ t work, cbLookup ((requestWithCB cfg true [] E t work).2.2) E ≠ none) := by
  have hmain : cbLookup (cbScenario cfg E) E = some ⟨.opened, 0, cfg.timeout⟩ :=
    applyFailures_trips cfg E cfg.failureThreshold 0 [] rfl (by omega) hF
  refine ⟨hmain, ?_, ?_, ?_, ?_, ?_⟩
  · intro t work ht
    simp only [requestWithCB, Bool.true_eq_false, if_false, hmain, Option.getD_some,
      Breaker.execute]
    rw [if_neg (by omega)]
    exact ⟨rfl, rfl⟩
  · intro t work ht
    simp only [requestWithCB, Bool.true_eq_false, if_false, hmain, Option.getD_some,
      Breaker.execute]
    rw [if_pos ht]
    cases work <;> rfl
  · exact applyFailures_other cfg E E2 hne 0 cfg.failureThreshold []
  · intro t work
    have h2 : cbLookup (cbScenario cfg E) E2 = none :=
      applyFailures_other cfg E E2 hne 0 cfg.failureThreshold []
    simp only [requestWithCB, Bool.true_eq_false, if_false, h2, Option.getD_none,
      Breaker.new, Breaker.execute]
    cases work with
    | ok r => rfl
    | error e => split_ifs <;> rfl
  · intro t work
    have hreg : (requestWithCB cfg true [] E t work).2.2 =
        cbSet [] E (((cbLookup [] E).getD Breaker.new).execute cfg t work).2.2 := by
      simp only [requestWithCB, Bool.true_eq_false, if_false]
    rw [hreg, cbLookup_cbSet_same]
    exact Option.some_ne_none _

/-- Claim C5, witness: threshold 2, timeout 30, endpoints "a" and "b": after 2 failures on
"a" its breaker is open until 30; a call at instant 5 is rejected without running the work;
a call at instant 30 runs; "b" has no breaker and its call runs; a first call on a fresh
registry creates and caches the breaker. -/
theorem circuitBreaker_scenario_witness :
    cbLookup (cbScenario ⟨30, 2⟩ "a") "a" = some ⟨.opened, 0, 30⟩ ∧
    (requestWithCB ⟨30, 2⟩ true (cbScenario ⟨30, 2⟩ "a") "a" 5 (.ok 7)).2.1 = false ∧
    (requestWithCB ⟨30, 2⟩ true (cbScenario ⟨30, 2⟩ "a") "a" 30 (.ok 7)).2.1 = true ∧
    cbLookup (cbScenario ⟨30, 2⟩ "a") "b" = none ∧
    (requestWithCB ⟨30, 2⟩ true (cbScenario ⟨30, 2⟩ "a") "b" 0 (.ok 7)).2.1 = true ∧
    cbLookup ((requestWithCB ⟨30, 2⟩ true [] "a" 0 (.ok 7)).2.2) "a" ≠ none := by
  have h := circuitBreaker_scenario ⟨30, 2⟩ "a" "b" (by decide) (by decide)
  exact ⟨h.1, (h.2.1 5 (.ok 7) (by decide)).2, h.2.2.1 30 (.ok 7) (by decide),
    h.2.2.2.1, h.2.2.2.2.1 0 (.ok 7), h.2.2.2.2.2 0 (.ok 7)⟩

/-! ## Claim C6: fan-out and broken tracking -/

theorem mem_brokenAdd (broken : List ℕ) (i j : ℕ) :
    i ∈ brokenAdd broken j ↔ i ∈ broken ∨ i = j := by
  rw [brokenAdd]
  by_cases h : broken.contains j
  · rw [if_pos h]
    constructor
    · exact Or.inl
    · rintro (hi | rfl)
      · exact hi
      · exact List.mem_of_elem_eq_true h
  · rw [if_neg h]
    simp [List.mem_append]

theorem mem_brokenDelete (broken : List ℕ) (i j : ℕ) :
    i ∈ brokenDelete broken j ↔ i ∈ broken ∧ i ≠ j := by
  rw [brokenDelete]
  simp [List.mem_filter]

theorem joinLoop_broken_not_mem (out : ℕ → Except String ℕ) (disp : ℕ → Bool) :
    ∀ (L : List ℕ) (broken : List ℕ) (i : ℕ), i ∉ L →
      (i ∈ (joinLoop out disp L broken).2.2 ↔ i ∈ broken) := by
  intro L
  induction L with
  | nil => intro broken i _; rw [joinLoop]
  | cons j rest ih =>
    intro broken i hi
    have hij : i ≠ j := fun h => hi (h ▸ List.mem_cons_self j rest)
    have hirest : i ∉ rest := fun h => hi (List.mem_cons_of_mem j h)
    rw [joinLoop]
    by_cases hd : disp j
    · rw [if_pos hd]
      cases hout : out j with
      | ok r =>
        dsimp only
        rw [ih (brokenDelete broken j) i hirest, mem_brokenDelete]
        simp [hij]
      | error e =>
        dsimp only
        rw [ih (brokenAdd broken j) i hirest, mem_brokenAdd]
        simp [hij]
    · rw [if_neg hd]
      exact ih broken i hirest

theorem joinLoop_broken_dispatched (out : ℕ → Except String ℕ) (disp : ℕ → Bool) :
    ∀ (L : List ℕ) (broken : List ℕ) (i : ℕ), L.Nodup → i ∈ L → disp i = true →
      (i ∈ (joinLoop out disp L broken).2.2 ↔ ∃ e, out i = .error e) := by
  intro L
  induction L with
  | nil => intro broken i _ hi; exact absurd hi (List.not_mem_nil i)
  | cons j rest ih =>
    intro broken i hnd hi hd
    have hndr : rest.Nodup := (List.nodup_cons.mp hnd).2
    have hjr : j ∉ rest := (List.nodup_cons.mp hnd).1
    rcases List.mem_cons.mp hi with rfl | hir
    · rw [joinLoop, if_pos hd]
      cases hout : out i with
      | ok r =>
        dsimp only
        rw [joinLoop_broken_not_mem out disp rest (brokenDelete broken i) i hjr,
          mem_brokenDelete]
        simp [hout]
      | error e =>
        dsimp only
        rw [joinLoop_broken_not_mem out disp rest (brokenAdd broken i) i hjr, mem_brokenAdd]
        simp [hout]
    · have hij : i ≠ j := fun h => hjr (h ▸ hir)
      rw [joinLoop]
      by_cases hdj : disp j
      · rw [if_pos hdj]
        cases hout : out j with
        | ok r => exact ih (brokenDelete broken j) i hndr hir hd
        | error e => exact ih (brokenAdd broken j) i hndr hir hd
      · rw [if_neg hdj]
        exact ih broken i hndr hir hd

/-- The per-client outcomes of the claim's scenario: client 1 fails with "boom", clients 0
and 2 succeed with responses 10 and 12. -/
def fanoutOutcomes : ℕ → Except String ℕ :=
  fun i => if i = 1 then .error "boom" else .ok (10 + i)

/-- Claim C6: with 3 clients, an empty broken set, client 1 failing and clients 0 and 2
succeeding, Request returns exactly the 2 responses [10, 12] and the joined error list
[(1, "boom")] naming client 1, and the broken set becomes [1]; GetBroken then returns [1];
UseBroken yields the same clients and broken set with the useBroken flag set, under which
only index 1 passes the dispatch filter, and a Request through it in which client 1 now
succeeds returns its response and clears the broken set.  In general, any dispatched index
is in the resulting broken set exactly when its request failed: added on failure, removed
on success. -/
theorem httpSet_fanout :
    setRequest fanoutOutcomes 3 [] false = ([10, 12], [(1, "boom")], [1]) ∧
    getBroken (setRequest fanoutOutcomes 3 [] false).2.2 = [1] ∧
    useBrokenView ⟨3, [1], false⟩ = some ⟨3, [1], true⟩ ∧
    (List.range 3).filter (shouldDispatch true [1]) = [1] ∧
    setRequest (fun i => .ok (20 + i)) 3 [1] true = ([21], [], []) ∧
    (∀ (out : ℕ → Except String ℕ) (n : ℕ) (broken : List ℕ) (ub : Bool) (i : ℕ),
      i < n → shouldDispatch ub broken i = true →
      (i ∈ (setRequest out n broken ub).2.2 ↔ ∃ e, out i = .error e)) := by
  refine ⟨by decide, by decide, by decide, by decide, by decide, ?_⟩
  intro out n broken ub i hin hdisp
  rw [setRequest]
  exact joinLoop_broken_dispatched out (shouldDispatch ub broken) (List.range n) broken i
    (List.nodup_range n) (List.mem_range.mpr hin) hdisp

/-- Claim C6, witness for the general broken-tracking part: in the scenario itself, the
failed client 1 is in the broken set afterwards because its outcome is an error. -/
theorem httpSet_fanout_witness :
    1 ∈ (setRequest fanoutOutcomes 3 [] false).2.2 :=
  (httpSet_fanout.2.2.2.2.2 fanoutOutcomes 3 [] false 1 (by decide) (by decide)).mpr
    ⟨"boom", rfl⟩

end Cliex
